import Mathlib

/-!
Shallow embedding of the `ob7/reddit-username-generator` repository
(files `generate.py` and `orig.py`).

The repository probes a remote service for identifier availability.  The
embedding models, faithfully to the Python source:

* the response classifier `check_username` (both the plain variant in
  `orig.py` and the enriched, BeautifulSoup-diagnostic variant in
  `generate.py`), as a pure function of the transport outcome;
* the sliding-window rate limiter `RateLimiter.wait_if_needed`, over
  rational-number timestamps, returning the sleep duration it performs;
* the bulk drivers `find_available_usernames` of both files, as a fold with
  early exit over the candidate list, with the file system (result log and
  checkpoint log) as explicit state;
* the candidate enumerator `itertools.product(CHARACTERS, repeat=L)`;
* `load_checked_usernames`, over an optional file content (`none` models a
  missing file, i.e. the `FileNotFoundError` branch).

Each Python code path that returns is a distinct branch of the embedding;
`Verdict` tags the classifier's four return paths (two `True` paths =
`available`, the plain `return False` path = `taken`, the `except` path =
`indeterminate`), matching the verdict vocabulary of the repository's
specification, and the boolean the Python function actually returns is
recovered by `Verdict.isAvailable`.
-/

/-- Verdict of one probe: tags the return paths of `check_username`. -/
inductive Verdict
  | available
  | taken
  | indeterminate
  deriving DecidableEq, Repr

/-- Transport outcome of one HTTP probe: either a received response with a
status code and a body, or a raised exception (timeout, connection error,
etc. -- the `except Exception` branch). -/
inductive Outcome
  | response (status : ℕ) (body : String)
  | error
  deriving DecidableEq

/-- The exact phrase tested for in the response body
(`"Sorry, nobody on Reddit goes by that name" in response.text`). -/
def notFoundPhrase : String := "Sorry, nobody on Reddit goes by that name"

/-- Python's substring test `notFoundPhrase in body`. -/
def containsPhrase (body : String) : Bool :=
  decide (notFoundPhrase.toList <:+: body.toList)

/-- Classification of a received response (`check_username`, the non-except
path): status code 404 is checked first, then the body phrase, otherwise the
username is reported taken. -/
def classifyResponse (status : ℕ) (body : String) : Verdict :=
  if status = 404 then Verdict.available
  else if containsPhrase body then Verdict.available
  else Verdict.taken

/-- `check_username` on a transport outcome: verdict together with the sleep
performed before returning (the `except` branch runs `time.sleep(30)`). -/
def checkUsernameOutcome : Outcome → Verdict × ℚ
  | Outcome.response s b => (classifyResponse s b, 0)
  | Outcome.error => (Verdict.indeterminate, 30)

/-- Whether a verdict corresponds to Python's `return True`. -/
def Verdict.isAvailable : Verdict → Bool
  | Verdict.available => true
  | _ => false

/-- The boolean `check_username` actually returns to its caller. -/
def checkUsernameBool (o : Outcome) : Bool :=
  (checkUsernameOutcome o).1.isAvailable

/-- `ARIA_LABEL_OCCURRENCE = 1` in `generate.py`. -/
def ariaLabelOccurrence : ℕ := 1

/-- Diagnostic aria-label string computed by `generate.py`'s enriched
`check_username`.  `extract` abstracts `BeautifulSoup(...).find_all('article',
{'aria-label': True})`, returning the aria-label attribute values found in the
body. -/
def ariaDiag (extract : String → List String) (body : String) : String :=
  let articles := extract body
  let targetIndex := ariaLabelOccurrence - 1
  if targetIndex < articles.length then
    articles.getD targetIndex ""
  else
    "No " ++ toString ariaLabelOccurrence ++ "th <article> with aria-label found"

/-- The enriched `check_username` of `generate.py`: same classification, plus
the structural diagnostic (second component), which the source only prints. -/
def checkUsernameFull (extract : String → List String) : Outcome → Verdict × String
  | Outcome.response s b => (classifyResponse s b, ariaDiag extract b)
  | Outcome.error => (Verdict.indeterminate, "")

/-! ### Rate limiter -/

/-- State of `RateLimiter`: the quota and the deque of request timestamps
(front = oldest).  Timestamps are rationals (seconds). -/
structure RateLimiter where
  requests_per_minute : ℕ
  request_times : List ℚ
  deriving DecidableEq

/-- `collections.deque(maxlen=m).append(x)`: drops the oldest (front) entry
when the deque is full. -/
def dequeAppend (maxlen : ℕ) (l : List ℚ) (x : ℚ) : List ℚ :=
  if l.length < maxlen then l ++ [x] else l.drop 1 ++ [x]

/-- `RateLimiter.wait_if_needed`, with `now = datetime.now()` passed in
explicitly.  Returns the new state and the duration slept.  Note the source
appends `now` — the timestamp captured at entry — also after sleeping. -/
def wait_if_needed (rl : RateLimiter) (now : ℚ) : RateLimiter × ℚ :=
  if rl.request_times.length < rl.requests_per_minute then
    ({ rl with request_times := dequeAppend rl.requests_per_minute rl.request_times now }, 0)
  else
    let oldest := rl.request_times.headD 0
    let time_passed := now - oldest
    let sleep_time := if time_passed < 60 then 60 - time_passed else 0
    ({ rl with request_times := dequeAppend rl.requests_per_minute rl.request_times now },
      sleep_time)

/-- `n` consecutive `wait_if_needed` calls with no intervening delay: each call
happens at the instant the previous one returned.  Returns the limiter state
and the clock after the `n`-th call (= return time of call `n`). -/
def consecutiveCalls (rl : RateLimiter) (t : ℚ) : ℕ → RateLimiter × ℚ
  | 0 => (rl, t)
  | n + 1 =>
    let prev := consecutiveCalls rl t n
    let step := wait_if_needed prev.1 prev.2
    (step.1, prev.2 + step.2)

/-! ### Enumerator -/

/-- `CHARACTERS = string.ascii_lowercase + string.digits`. -/
def CHARACTERS : List Char :=
  "abcdefghijklmnopqrstuvwxyz0123456789".toList

/-- `itertools.product(alpha, repeat=n)`: all length-`n` tuples over `alpha`,
first coordinate outermost (so the order is lexicographic in the order the
symbols appear in `alpha`). -/
def pyProduct (alpha : List Char) : ℕ → List (List Char)
  | 0 => [[]]
  | n + 1 => alpha.flatMap (fun c => (pyProduct alpha n).map (fun t => c :: t))

/-- Candidate usernames in generation order: `''.join(combo)` over the
product. -/
def usernames (alpha : List Char) (L : ℕ) : List String :=
  (pyProduct alpha L).map String.mk

/-! ### Checkpoint file -/

/-- Python's `str.strip()` with its default argument: remove leading and
trailing whitespace characters. -/
def pyStrip (s : String) : String :=
  String.mk (((s.toList.dropWhile Char.isWhitespace).reverse.dropWhile
    Char.isWhitespace).reverse)

/-- `load_checked_usernames`: `none` models the `FileNotFoundError` branch,
`some lines` the lines of an existing file; each line is stripped and the
results collected into a set. -/
def load_checked_usernames : Option (List String) → Finset String
  | none => ∅
  | some lines => (lines.map pyStrip).toFinset

/-! ### Bulk drivers -/

/-- Persistent files the drivers append to: the available-usernames result
log and the checked-usernames checkpoint log (new lines appended this run). -/
structure FS where
  resultLog : List String
  checkpointLog : List String
  deriving DecidableEq

/-- Driver state: in-memory available list, trace of candidates actually
passed to `check_username` (in order), `checked` counter (`orig.py`), and the
file system. -/
structure DriveState where
  available : List String
  probed : List String
  checkedCount : ℕ
  fs : FS
  deriving DecidableEq

/-- Fresh state at the start of a run. -/
def initState : DriveState :=
  { available := [], probed := [], checkedCount := 0,
    fs := { resultLog := [], checkpointLog := [] } }

/-- Python truthiness-guarded cap test `max_checks and k >= max_checks`
(`None` and `0` are both falsy). -/
def capReached (m : Option ℕ) (k : ℕ) : Bool :=
  match m with
  | none => false
  | some n => decide (0 < n) && decide (n ≤ k)

/-- One iteration of `orig.py`'s bulk loop body on candidate `u`: skip if
checkpointed; otherwise probe, on `True` append to the in-memory list and the
result file, then unconditionally log to the checkpoint file; finally test the
probe-count cap.  The boolean is the `break` decision. -/
def origStep (checked : Finset String) (env : String → Outcome) (m : Option ℕ)
    (st : DriveState) (u : String) : DriveState × Bool :=
  if u ∈ checked then (st, false)
  else
    let st1 := { st with probed := st.probed ++ [u], checkedCount := st.checkedCount + 1 }
    let st2 :=
      if checkUsernameBool (env u) then
        { st1 with available := st1.available ++ [u],
                   fs := { st1.fs with resultLog := st1.fs.resultLog ++ [u] } }
      else st1
    let st3 := { st2 with fs := { st2.fs with checkpointLog := st2.fs.checkpointLog ++ [u] } }
    (st3, capReached m st3.checkedCount)

/-- One iteration of the active bulk loop of `generate.py` on candidate `u`:
probe, on `True` append to the in-memory list only (no file writes, no
checkpoint), then test the cap — which counts the available results. -/
def genStep (env : String → Outcome) (m : Option ℕ)
    (st : DriveState) (u : String) : DriveState × Bool :=
  let st1 := { st with probed := st.probed ++ [u] }
  let st2 :=
    if checkUsernameBool (env u) then { st1 with available := st1.available ++ [u] }
    else st1
  (st2, capReached m st2.available.length)

/-- The `for combo in product(...)` loop with `break`. -/
def runLoop (step : DriveState → String → DriveState × Bool) :
    List String → DriveState → DriveState
  | [], st => st
  | u :: us, st =>
    let r := step st u
    if r.2 then r.1 else runLoop step us r.1

/-- `orig.py`'s `find_available_usernames` bulk loop over a candidate list. -/
def origRun (checked : Finset String) (env : String → Outcome) (m : Option ℕ)
    (cands : List String) (st : DriveState) : DriveState :=
  runLoop (origStep checked env m) cands st

/-- `generate.py`'s active `find_available_usernames` bulk loop. -/
def bulkGen (env : String → Outcome) (m : Option ℕ)
    (cands : List String) (st : DriveState) : DriveState :=
  runLoop (genStep env m) cands st

/-- `orig.py`'s `find_available_usernames` in bulk mode: load the checkpoint
file into the checked set, then run the loop from a fresh state. -/
def find_available_usernames_orig (checkpointFile : Option (List String))
    (env : String → Outcome) (m : Option ℕ) (cands : List String) : DriveState :=
  origRun (load_checked_usernames checkpointFile) env m cands initState

/-- Content of an append-mode file after a run: prior content (empty if the
file did not exist) followed by the lines appended during the run. -/
def fileAfter (file : Option (List String)) (newLines : List String) : List String :=
  file.getD [] ++ newLines

/-! ### Helper lemmas -/

theorem runLoop_nil (step : DriveState → String → DriveState × Bool) (st : DriveState) :
    runLoop step [] st = st := rfl

theorem runLoop_cons (step : DriveState → String → DriveState × Bool)
    (u : String) (us : List String) (st : DriveState) :
    runLoop step (u :: us) st =
      if (step st u).2 then (step st u).1 else runLoop step us (step st u).1 := rfl

theorem origStep_mem (checked : Finset String) (env : String → Outcome) (m : Option ℕ)
    (st : DriveState) (u : String) (hu : u ∈ checked) :
    origStep checked env m st u = (st, false) := by
  unfold origStep
  rw [if_pos hu]

theorem origStep_not_mem (checked : Finset String) (env : String → Outcome) (m : Option ℕ)
    (st : DriveState) (u : String) (hu : u ∉ checked) :
    (origStep checked env m st u).1.probed = st.probed ++ [u] ∧
    (origStep checked env m st u).1.fs.checkpointLog = st.fs.checkpointLog ++ [u] ∧
    (origStep checked env m st u).1.checkedCount = st.checkedCount + 1 ∧
    (origStep checked env m st u).1.available =
      (if checkUsernameBool (env u) then st.available ++ [u] else st.available) ∧
    (origStep checked env m st u).1.fs.resultLog =
      (if checkUsernameBool (env u) then st.fs.resultLog ++ [u] else st.fs.resultLog) ∧
    (origStep checked env m st u).2 = capReached m (st.checkedCount + 1) := by
  unfold origStep
  rw [if_neg hu]
  by_cases hb : checkUsernameBool (env u) <;> simp [hb]

theorem genStep_fields (env : String → Outcome) (m : Option ℕ)
    (st : DriveState) (u : String) :
    (genStep env m st u).1.probed = st.probed ++ [u] ∧
    (genStep env m st u).1.available =
      (if checkUsernameBool (env u) then st.available ++ [u] else st.available) ∧
    (genStep env m st u).1.fs = st.fs ∧
    (genStep env m st u).2 = capReached m (genStep env m st u).1.available.length := by
  unfold genStep
  by_cases hb : checkUsernameBool (env u) <;> simp [hb]

theorem mem_load_checked (lines : List String) (s : String) :
    s ∈ load_checked_usernames (some lines) ↔ ∃ l ∈ lines, pyStrip l = s := by
  simp [load_checked_usernames]

theorem origRun_no_skip_no_cap (env : String → Outcome) :
    ∀ (cands : List String) (st : DriveState),
      (origRun ∅ env none cands st).probed = st.probed ++ cands := by
  intro cands
  induction cands with
  | nil => intro st; simp [origRun, runLoop_nil]
  | cons u us ih =>
    intro st
    have hu : u ∉ (∅ : Finset String) := Finset.not_mem_empty u
    have hs := origStep_not_mem ∅ env none st u hu
    have hbrk : (origStep ∅ env none st u).2 = false := by
      rw [hs.2.2.2.2.2]; rfl
    rw [origRun, runLoop_cons]
    simp only [hbrk, Bool.false_eq_true, if_false]
    have := ih (origStep ∅ env none st u).1
    rw [origRun] at this
    rw [this, hs.1, List.append_assoc]
    rfl

theorem origRun_spec (checked : Finset String) (env : String → Outcome) (m : Option ℕ) :
    ∀ (cands : List String) (st : DriveState),
      ∃ newp : List String,
        (origRun checked env m cands st).probed = st.probed ++ newp ∧
        (origRun checked env m cands st).fs.checkpointLog = st.fs.checkpointLog ++ newp ∧
        ∀ u ∈ newp, u ∈ cands ∧ u ∉ checked := by
  intro cands
  induction cands with
  | nil =>
    intro st
    exact ⟨[], by simp [origRun, runLoop_nil], by simp [origRun, runLoop_nil], by simp⟩
  | cons u us ih =>
    intro st
    by_cases hu : u ∈ checked
    · rw [origRun, runLoop_cons, origStep_mem checked env m st u hu]
      simp only [if_false]
      obtain ⟨newp, h1, h2, h3⟩ := ih st
      exact ⟨newp, h1, h2, fun v hv => ⟨List.mem_cons_of_mem u (h3 v hv).1, (h3 v hv).2⟩⟩
    · have hs := origStep_not_mem checked env m st u hu
      rw [origRun, runLoop_cons]
      by_cases hbrk : (origStep checked env m st u).2 = true
      · rw [if_pos hbrk]
        exact ⟨[u], hs.1, hs.2.1, by
          intro v hv
          rw [List.mem_singleton] at hv
          subst hv
          exact ⟨List.mem_cons_self _ _, hu⟩⟩
      · rw [if_neg hbrk]
        obtain ⟨newp, h1, h2, h3⟩ := ih (origStep checked env m st u).1
        rw [origRun] at h1 h2
        refine ⟨u :: newp, ?_, ?_, ?_⟩
        · rw [h1, hs.1, List.append_assoc]; rfl
        · rw [h2, hs.2.1, List.append_assoc]; rfl
        · intro v hv
          rcases List.mem_cons.mp hv with rfl | hv'
          · exact ⟨List.mem_cons_self v us, hu⟩
          · exact ⟨List.mem_cons_of_mem u (h3 v hv').1, (h3 v hv').2⟩

/-! ### Claim theorems -/

/-- C1: for every received HTTP response, `check_username` classifies the
username Available exactly when the status code is 404 or the body contains
the phrase "Sorry, nobody on Reddit goes by that name"; the status code is
checked first (a 404 is Available whatever the body says), and in every other
received-response case the verdict is Taken.  The final conjunct is the
spec's scenario (status 200, body equal to the phrase). -/
theorem c1_classifier (s : ℕ) (b : String) :
    (checkUsernameOutcome (Outcome.response s b)).1 = classifyResponse s b ∧
    (classifyResponse s b = Verdict.available ↔ (s = 404 ∨ containsPhrase b = true)) ∧
    (s = 404 → classifyResponse s b = Verdict.available) ∧
    (¬ (s = 404 ∨ containsPhrase b = true) → classifyResponse s b = Verdict.taken) ∧
    classifyResponse 200 notFoundPhrase = Verdict.available := by
  refine ⟨rfl, ?_, ?_, ?_, by decide⟩
  · unfold classifyResponse
    by_cases h4 : s = 404 <;> by_cases hp : containsPhrase b = true <;> simp [h4, hp]
  · intro h
    simp [classifyResponse, h]
  · intro h
    push_neg at h
    simp [classifyResponse, h.1, h.2]

/-- Witness for C1 at concrete inputs: a 404 with a non-matching body is
Available, and a 200 with a plain profile body is Taken. -/
theorem c1_classifier_witness :
    classifyResponse 404 "<profile>...</profile>" = Verdict.available ∧
    classifyResponse 200 "<profile>...</profile>" = Verdict.taken :=
  ⟨(c1_classifier 404 "<profile>...</profile>").2.2.1 rfl,
   (c1_classifier 200 "<profile>...</profile>").2.2.2.1 (by decide)⟩

/-- C9: the verdict is a deterministic pure function of the transport outcome
(status code and body).  The nth-aria-label structural inspection of
`generate.py` has no effect on it: the enriched classifier's verdict is the
same for any two extraction functions, and equals the plain classifier's
verdict (`orig.py`). -/
theorem c9_determinism (e1 e2 : String → List String) (o : Outcome) :
    (checkUsernameFull e1 o).1 = (checkUsernameFull e2 o).1 ∧
    (checkUsernameFull e1 o).1 = (checkUsernameOutcome o).1 := by
  cases o <;> exact ⟨rfl, rfl⟩

/-- C4: when the transport raises, `check_username` lands in the `except`
branch: the verdict is Indeterminate (a distinct return path from Available
and from Taken), it sleeps 30 seconds before returning, it returns normally
(`False`) rather than propagating the exception — the embedding is a total
function — and neither driver appends the candidate to the in-memory
available list or to the result log. -/
theorem c4_error_probe (env : String → Outcome) (u : String) (st : DriveState)
    (checked : Finset String) (m : Option ℕ) (herr : env u = Outcome.error) :
    checkUsernameOutcome (env u) = (Verdict.indeterminate, 30) ∧
    Verdict.indeterminate ≠ Verdict.available ∧
    Verdict.indeterminate ≠ Verdict.taken ∧
    checkUsernameBool (env u) = false ∧
    (genStep env m st u).1.available = st.available ∧
    (u ∉ checked →
      (origStep checked env m st u).1.available = st.available ∧
      (origStep checked env m st u).1.fs.resultLog = st.fs.resultLog) := by
  have hb : checkUsernameBool (env u) = false := by rw [herr]; rfl
  refine ⟨by rw [herr]; rfl, by decide, by decide, hb, ?_, ?_⟩
  · rw [(genStep_fields env m st u).2.1, hb]
    simp
  · intro hu
    have hs := origStep_not_mem checked env m st u hu
    rw [hs.2.2.2.1, hs.2.2.2.2.1, hb]
    simp

/-- Witness for C4: a probe whose transport always errors, on candidate
"abc", starting from the fresh state. -/
theorem c4_error_probe_witness :
    checkUsernameOutcome ((fun _ => Outcome.error) "abc") = (Verdict.indeterminate, 30) ∧
    (origStep ∅ (fun _ => Outcome.error) none initState "abc").1.available = initState.available ∧
    (origStep ∅ (fun _ => Outcome.error) none initState "abc").1.fs.resultLog =
      initState.fs.resultLog :=
  ⟨(c4_error_probe (fun _ => Outcome.error) "abc" initState ∅ none rfl).1,
   ((c4_error_probe (fun _ => Outcome.error) "abc" initState ∅ none rfl).2.2.2.2.2
      (Finset.not_mem_empty "abc")).1,
   ((c4_error_probe (fun _ => Outcome.error) "abc" initState ∅ none rfl).2.2.2.2.2
      (Finset.not_mem_empty "abc")).2⟩

/-- C10: `load_checked_usernames` returns the empty set when the checkpoint
file does not exist (the `FileNotFoundError` branch) instead of raising, so a
first run with no prior checkpoint skips nothing — with no cap it probes the
whole candidate list; when the file exists it returns the set of its lines
with surrounding whitespace stripped. -/
theorem c10_load_checkpoint (lines : List String) (s : String)
    (env : String → Outcome) (cands : List String) :
    load_checked_usernames none = ∅ ∧
    (s ∈ load_checked_usernames (some lines) ↔ ∃ l ∈ lines, pyStrip l = s) ∧
    (origRun (load_checked_usernames none) env none cands initState).probed = cands := by
  refine ⟨rfl, mem_load_checked lines s, ?_⟩
  have h := origRun_no_skip_no_cap env cands initState
  rw [show load_checked_usernames none = ∅ from rfl, h]
  rfl

theorem consecutiveCalls_le (Q : ℕ) (t0 : ℚ) :
    ∀ n, n ≤ Q → consecutiveCalls ⟨Q, []⟩ t0 n = (⟨Q, List.replicate n t0⟩, t0) := by
  intro n
  induction n with
  | zero => intro _; rfl
  | succ k ih =>
    intro hk
    have hkQ : k ≤ Q := Nat.le_of_succ_le hk
    have hlt : k < Q := Nat.lt_of_succ_le hk
    rw [consecutiveCalls]
    simp only [ih hkQ]
    rw [wait_if_needed]
    simp only [List.length_replicate]
    rw [if_pos hlt]
    simp only [dequeAppend, List.length_replicate, if_pos hlt]
    rw [← List.replicate_succ']
    norm_num

/-- C3: starting from an empty rate window with quota Q ≥ 1, in a trace of
consecutive `wait_if_needed` calls with no intervening delay, each of the
first Q calls returns immediately (at the start time `t0`), and the (Q+1)-th
call returns exactly at `t0 + 60` — in particular not before `t0 + 60`,
sleeping for the remainder of the 60-second window measured from the oldest
recorded timestamp. -/
theorem c3_rate_limiter (Q : ℕ) (hQ : 1 ≤ Q) (t0 : ℚ) :
    (∀ n, n ≤ Q → (consecutiveCalls ⟨Q, []⟩ t0 n).2 = t0) ∧
    (consecutiveCalls ⟨Q, []⟩ t0 (Q + 1)).2 = t0 + 60 ∧
    t0 + 60 ≤ (consecutiveCalls ⟨Q, []⟩ t0 (Q + 1)).2 := by
  have hmain : (consecutiveCalls ⟨Q, []⟩ t0 (Q + 1)).2 = t0 + 60 := by
    obtain ⟨m, rfl⟩ : ∃ m, Q = m + 1 := ⟨Q - 1, by omega⟩
    rw [consecutiveCalls]
    simp only [consecutiveCalls_le (m + 1) t0 (m + 1) le_rfl]
    rw [wait_if_needed]
    simp only [List.length_replicate, lt_irrefl, if_false]
    simp [List.replicate_succ]
  exact ⟨fun n hn => by rw [consecutiveCalls_le Q t0 n hn], hmain, le_of_eq hmain.symm⟩

/-- Witness for C3 at quota 2 and start time 0: the first two calls return at
time 0, the third at time 0 + 60. -/
theorem c3_rate_limiter_witness :
    (consecutiveCalls ⟨2, []⟩ 0 2).2 = 0 ∧
    (consecutiveCalls ⟨2, []⟩ 0 3).2 = 0 + 60 :=
  ⟨(c3_rate_limiter 2 (by norm_num) 0).1 2 le_rfl,
   (c3_rate_limiter 2 (by norm_num) 0).2.1⟩

/-- C8 fails as stated: `wait_if_needed` pushes the timestamp captured at the
start of the call, not the current timestamp as of the moment of admission.
Concretely, with quota 1 and window [0], a call entering at time 0 sleeps 60
seconds (so it admits at time 60), yet the window afterwards is [0]: the
pushed entry is the pre-wait timestamp 0, and the admission-time timestamp 60
is not in the window at all. -/
theorem c8_counterexample :
    (wait_if_needed ⟨1, [0]⟩ 0).2 = 60 ∧
    (wait_if_needed ⟨1, [0]⟩ 0).1.request_times = [0] ∧
    ¬ ((0 : ℚ) + (wait_if_needed ⟨1, [0]⟩ 0).2 ∈
        (wait_if_needed ⟨1, [0]⟩ 0).1.request_times) := by
  norm_num [wait_if_needed, dequeAppend]

/-- C8 amended: every `wait_if_needed` call pushes the timestamp captured at
its entry (before any waiting) as the newest window entry, evicting the
oldest entry when the window already holds Q timestamps, so a window of at
most Q entries never grows beyond Q. -/
theorem c8_amended (rl : RateLimiter) (now : ℚ)
    (hlen : rl.request_times.length ≤ rl.requests_per_minute)
    (hQ : 1 ≤ rl.requests_per_minute) :
    (wait_if_needed rl now).1.request_times.getLast? = some now ∧
    (wait_if_needed rl now).1.request_times.length ≤ rl.requests_per_minute ∧
    (rl.request_times.length = rl.requests_per_minute →
      (wait_if_needed rl now).1.request_times = rl.request_times.drop 1 ++ [now]) := by
  have hform : (wait_if_needed rl now).1.request_times =
      dequeAppend rl.requests_per_minute rl.request_times now := by
    rw [wait_if_needed]
    by_cases h : rl.request_times.length < rl.requests_per_minute
    · rw [if_pos h]
    · rw [if_neg h]
  refine ⟨?_, ?_, ?_⟩
  · rw [hform, dequeAppend]
    by_cases h : rl.request_times.length < rl.requests_per_minute
    · rw [if_pos h]; simp
    · rw [if_neg h]; simp
  · rw [hform, dequeAppend]
    by_cases h : rl.request_times.length < rl.requests_per_minute
    · rw [if_pos h]
      simp only [List.length_append, List.length_singleton]
      omega
    · rw [if_neg h]
      simp only [List.length_append, List.length_singleton, List.length_drop]
      omega
  · intro heq
    rw [hform, dequeAppend, if_neg (by omega)]

/-- Witness for C8 amended: quota 1, window [0], entry time 5 — the call
pushes 5 and evicts the old entry. -/
theorem c8_amended_witness :
    (wait_if_needed ⟨1, [0]⟩ 5).1.request_times.getLast? = some 5 ∧
    (wait_if_needed ⟨1, [0]⟩ 5).1.request_times = List.drop 1 [(0 : ℚ)] ++ [5] :=
  ⟨(c8_amended ⟨1, [0]⟩ 5 (by norm_num) (by norm_num)).1,
   (c8_amended ⟨1, [0]⟩ 5 (by norm_num) (by norm_num)).2.2 (by norm_num)⟩

theorem length_flatMap_cons_map (ps : List (List Char)) :
    ∀ l : List Char,
      (l.flatMap fun c => ps.map (fun t => c :: t)).length = l.length * ps.length
  | [] => by simp
  | c :: l' => by
    rw [List.flatMap_cons, List.length_append, List.length_map,
      length_flatMap_cons_map ps l']
    simp [Nat.succ_mul]
    ring

theorem pyProduct_length (alpha : List Char) :
    ∀ n, (pyProduct alpha n).length = alpha.length ^ n
  | 0 => rfl
  | n + 1 => by
    rw [pyProduct, length_flatMap_cons_map, pyProduct_length alpha n, pow_succ]
    ring

theorem pyProduct_mem_length (alpha : List Char) :
    ∀ n, ∀ s ∈ pyProduct alpha n, s.length = n := by
  intro n
  induction n with
  | zero =>
    intro s hs
    simp only [pyProduct, List.mem_singleton] at hs
    subst hs
    rfl
  | succ k ih =>
    intro s hs
    rw [pyProduct, List.mem_flatMap] at hs
    obtain ⟨c, _, hs⟩ := hs
    rw [List.mem_map] at hs
    obtain ⟨t, ht, rfl⟩ := hs
    simp [ih t ht]

theorem lexLtIrrefl : ∀ s : List Char, ¬ List.Lex (· < ·) s s
  | [] => fun h => by cases h
  | c :: t => fun h => by
    cases h with
    | rel h => exact lt_irrefl c h
    | cons h => exact lexLtIrrefl t h

theorem pairwise_pyStep (ps : List (List Char))
    (hps : ps.Pairwise (fun s t => List.Lex (· < ·) s t)) :
    ∀ l : List Char, l.Pairwise (· < ·) →
      (l.flatMap fun c => ps.map (fun t => c :: t)).Pairwise
        (fun s t => List.Lex (· < ·) s t)
  | [], _ => by simp
  | c :: l', h => by
    rw [List.flatMap_cons, List.pairwise_append]
    refine ⟨List.Pairwise.map _ (fun a b hab => List.Lex.cons hab) hps,
      pairwise_pyStep ps hps l' (List.pairwise_cons.mp h).2, ?_⟩
    intro x hx y hy
    rw [List.mem_map] at hx
    obtain ⟨s, _, rfl⟩ := hx
    rw [List.mem_flatMap] at hy
    obtain ⟨d, hd, hy⟩ := hy
    rw [List.mem_map] at hy
    obtain ⟨t, _, rfl⟩ := hy
    exact List.Lex.rel ((List.pairwise_cons.mp h).1 d hd)

theorem pyProduct_pairwise (alpha : List Char) (hs : alpha.Pairwise (· < ·)) :
    ∀ n, (pyProduct alpha n).Pairwise (fun s t => List.Lex (· < ·) s t)
  | 0 => by simp [pyProduct]
  | n + 1 => by
    rw [pyProduct]
    exact pairwise_pyStep (pyProduct alpha n) (pyProduct_pairwise alpha hs n) alpha hs

/-- C2: for every length L ≥ 1 and alphabet of K distinct symbols listed in
increasing symbol order, the bulk-mode enumerator yields exactly K^L
candidate strings, each of length exactly L, in strictly increasing
lexicographic order (hence pairwise distinct); in particular for alphabet
`{a, b}` and L = 2 the sequence is "aa", "ab", "ba", "bb". -/
theorem c2_enumerator (alpha : List Char) (L K : ℕ) (hL : 1 ≤ L)
    (hK : alpha.length = K) (hsort : alpha.Pairwise (· < ·)) :
    (usernames alpha L).length = K ^ L ∧
    (∀ s ∈ usernames alpha L, s.length = L) ∧
    (usernames alpha L).Pairwise (fun s t => List.Lex (· < ·) s.toList t.toList) ∧
    (usernames alpha L).Nodup ∧
    usernames ['a', 'b'] 2 = ["aa", "ab", "ba", "bb"] := by
  have hpw : (usernames alpha L).Pairwise
      (fun s t => List.Lex (· < ·) s.toList t.toList) :=
    List.Pairwise.map _ (fun a b hab => hab) (pyProduct_pairwise alpha hsort L)
  refine ⟨?_, ?_, hpw, ?_, by decide⟩
  · rw [usernames, List.length_map, pyProduct_length, hK]
  · intro s hs
    rw [usernames, List.mem_map] at hs
    obtain ⟨t, ht, rfl⟩ := hs
    exact pyProduct_mem_length alpha L t ht
  · exact List.Pairwise.imp
      (fun hab hst => absurd (hst ▸ hab) (lexLtIrrefl _)) hpw

/-- Witness for C2 at alphabet {a, b} and L = 2: four candidates, in the
order "aa", "ab", "ba", "bb". -/
theorem c2_enumerator_witness :
    (usernames ['a', 'b'] 2).length = 2 ^ 2 ∧
    usernames ['a', 'b'] 2 = ["aa", "ab", "ba", "bb"] :=
  ⟨(c2_enumerator ['a', 'b'] 2 2 (by norm_num) rfl (by decide)).1,
   (c2_enumerator ['a', 'b'] 2 2 (by norm_num) rfl (by decide)).2.2.2.2⟩

theorem origRun_capped (env : String → Outcome) (N : ℕ) (hN : 0 < N) :
    ∀ (cands : List String) (st : DriveState), st.checkedCount < N →
      (origRun ∅ env (some N) cands st).checkedCount =
        min N (st.checkedCount + cands.length) ∧
      (origRun ∅ env (some N) cands st).probed.length + st.checkedCount =
        st.probed.length + (origRun ∅ env (some N) cands st).checkedCount := by
  intro cands
  induction cands with
  | nil =>
    intro st hst
    rw [origRun, runLoop_nil]
    exact ⟨by simp; omega, by omega⟩
  | cons u us ih =>
    intro st hst
    have hu : u ∉ (∅ : Finset String) := Finset.not_mem_empty u
    have hs := origStep_not_mem ∅ env (some N) st u hu
    have e1 : (origStep ∅ env (some N) st u).1.checkedCount = st.checkedCount + 1 :=
      hs.2.2.1
    have e2 : (origStep ∅ env (some N) st u).1.probed.length = st.probed.length + 1 := by
      rw [hs.1, List.length_append]
      rfl
    rw [origRun, runLoop_cons]
    by_cases hbrk : (origStep ∅ env (some N) st u).2 = true
    · rw [if_pos hbrk]
      rw [hs.2.2.2.2.2] at hbrk
      simp only [capReached, Bool.and_eq_true, decide_eq_true_eq] at hbrk
      have hcnt : st.checkedCount + 1 = N := by omega
      refine ⟨?_, by omega⟩
      rw [e1, List.length_cons]
      omega
    · rw [if_neg hbrk]
      rw [hs.2.2.2.2.2] at hbrk
      simp only [capReached, Bool.and_eq_true, decide_eq_true_eq, not_and, not_le] at hbrk
      have hlt : st.checkedCount + 1 < N := hbrk hN
      have hrec := ih (origStep ∅ env (some N) st u).1 (by omega)
      rw [origRun] at hrec
      obtain ⟨h1, h2⟩ := hrec
      refine ⟨?_, by omega⟩
      rw [h1, e1, List.length_cons]
      omega

theorem bulkGen_cap (env : String → Outcome) (N : ℕ) :
    ∀ (cands : List String) (st : DriveState), st.available.length < N →
      (bulkGen env (some N) cands st).available.length ≤ N := by
  intro cands
  induction cands with
  | nil =>
    intro st hst
    rw [bulkGen, runLoop_nil]
    omega
  | cons u us ih =>
    intro st hst
    have hg := genStep_fields env (some N) st u
    have hlen : (genStep env (some N) st u).1.available.length ≤ st.available.length + 1 := by
      rw [hg.2.1]
      by_cases hb : checkUsernameBool (env u) = true <;> simp [hb]
    rw [bulkGen, runLoop_cons]
    by_cases hbrk : (genStep env (some N) st u).2 = true
    · rw [if_pos hbrk]
      omega
    · rw [if_neg hbrk]
      refine ih _ ?_
      rw [hg.2.2.2] at hbrk
      simp only [capReached, Bool.and_eq_true, decide_eq_true_eq, not_and, not_le] at hbrk
      have hN0 : 0 < N := by omega
      exact hbrk hN0

/-- C5 fails as stated on the active driver of `generate.py`: its cap counts
discovered-available results, not probes.  Concretely, with cap N = 1 and the
two-candidate enumeration over alphabet {a, b} at length 1, every probe
returning Taken (status 200, empty body), the driver performs 2 probes — more
than N = 1, although the claim allows at most N probes. -/
theorem c5_counterexample :
    (bulkGen (fun _ => Outcome.response 200 "") (some 1)
        (usernames ['a', 'b'] 1) initState).probed.length = 2 ∧
    ¬ ((2 : ℕ) ≤ 1) ∧
    (usernames ['a', 'b'] 1).length = 2 := by
  decide

/-- C5 amended: the probes-performed cap semantics belongs to `orig.py`, whose
driver (with no prior checkpoint) halts after exactly min(N, number of
candidates) probes, counting every probe regardless of verdict; the active
driver of `generate.py` instead stops once N candidates have been classified
Available, so its in-memory available list never exceeds N entries. -/
theorem c5_amended (env : String → Outcome) (cands : List String) (N : ℕ)
    (hN : 1 ≤ N) :
    (origRun ∅ env (some N) cands initState).probed.length = min N cands.length ∧
    (bulkGen env (some N) cands initState).available.length ≤ N := by
  constructor
  · have h := origRun_capped env N hN cands initState
      (by simp [initState]; omega)
    have h0c : initState.checkedCount = 0 := rfl
    have h0p : initState.probed.length = 0 := rfl
    rw [h0c, h0p] at h
    omega
  · exact bulkGen_cap env N cands initState (by simp [initState]; omega)

/-- Witness for C5 amended: cap 5 over the four candidates of alphabet
{a, b} at length 2, all probes Taken — `orig.py`'s driver performs
min 5 4 = 4 probes. -/
theorem c5_amended_witness :
    (origRun ∅ (fun _ => Outcome.response 200 "") (some 5)
        (usernames ['a', 'b'] 2) initState).probed.length =
      min 5 (usernames ['a', 'b'] 2).length ∧
    (bulkGen (fun _ => Outcome.response 200 "") (some 5)
        (usernames ['a', 'b'] 2) initState).available.length ≤ 5 :=
  c5_amended (fun _ => Outcome.response 200 "") (usernames ['a', 'b'] 2) 5
    (by norm_num)

/-- C6 fails as stated on the active driver of `generate.py`: its bulk mode
has no checkpoint handling at all.  Concretely, probing the single candidate
"abc" (Taken) appends nothing to the checkpoint log — so the probed candidate
is not appended to the CheckpointSet, and a second identical run (the same
expression) probes "abc" again. -/
theorem c6_counterexample :
    "abc" ∈ (bulkGen (fun _ => Outcome.response 200 "") none ["abc"] initState).probed ∧
    (bulkGen (fun _ => Outcome.response 200 "") none ["abc"] initState).fs.checkpointLog
      = [] := by
  decide

/-- C6 amended: the checkpoint contract holds of `orig.py`'s driver — every
candidate in the CheckpointSet loaded at startup is skipped without being
probed, every probed candidate is appended to the checkpoint file, and a
second bulk run over the same candidates, loading the checkpoint file left by
the first run, re-probes no identifier probed in the first run; the active
driver of `generate.py` maintains no checkpoint (see the counterexample). -/
theorem c6_amended (env env' : String → Outcome) (file : Option (List String))
    (m m' : Option ℕ) (cands : List String)
    (hstrip : ∀ u ∈ cands, pyStrip u = u) :
    (∀ u ∈ (find_available_usernames_orig file env m cands).probed,
        u ∉ load_checked_usernames file) ∧
    (find_available_usernames_orig file env m cands).fs.checkpointLog =
      (find_available_usernames_orig file env m cands).probed ∧
    (∀ u ∈ (find_available_usernames_orig
          (some (fileAfter file
            (find_available_usernames_orig file env m cands).fs.checkpointLog))
          env' m' cands).probed,
        u ∉ (find_available_usernames_orig file env m cands).probed) := by
  obtain ⟨newp, h1, h2, h3⟩ :=
    origRun_spec (load_checked_usernames file) env m cands initState
  have hp1 : (find_available_usernames_orig file env m cands).probed = newp := by
    rw [find_available_usernames_orig, h1]
    rfl
  have hcp1 : (find_available_usernames_orig file env m cands).fs.checkpointLog
      = newp := by
    rw [find_available_usernames_orig, h2]
    rfl
  refine ⟨?_, by rw [hp1, hcp1], ?_⟩
  · intro u hu
    rw [hp1] at hu
    exact (h3 u hu).2
  · intro u hu hmem
    obtain ⟨newp2, g1, g2, g3⟩ := origRun_spec
      (load_checked_usernames (some (fileAfter file
        (find_available_usernames_orig file env m cands).fs.checkpointLog)))
      env' m' cands initState
    rw [find_available_usernames_orig, g1] at hu
    rw [hp1] at hmem
    refine (g3 u (by simpa [initState] using hu)).2 ?_
    rw [hcp1, mem_load_checked]
    refine ⟨u, ?_, hstrip u (h3 u hmem).1⟩
    rw [fileAfter]
    exact List.mem_append_right _ hmem

/-- Witness for C6 amended: checkpoint file ["a"], candidates ["a", "b"],
all probes Taken — "a" is skipped ("b" is not in the loaded set) and the
checkpoint log equals the probe trace. -/
theorem c6_amended_witness :
    "b" ∉ load_checked_usernames (some ["a"]) ∧
    (find_available_usernames_orig (some ["a"])
        (fun _ => Outcome.response 200 "") none ["a", "b"]).fs.checkpointLog =
      (find_available_usernames_orig (some ["a"])
        (fun _ => Outcome.response 200 "") none ["a", "b"]).probed :=
  ⟨(c6_amended (fun _ => Outcome.response 200 "") (fun _ => Outcome.response 200 "")
      (some ["a"]) none none ["a", "b"] (by decide)).1 "b" (by decide),
   (c6_amended (fun _ => Outcome.response 200 "") (fun _ => Outcome.response 200 "")
      (some ["a"]) none none ["a", "b"] (by decide)).2.1⟩

/-- C7 fails as stated on the active driver of `generate.py`: a candidate
classified Available (status 404) is accumulated in the in-memory result
list, but nothing is ever appended to the persistent result log. -/
theorem c7_counterexample :
    (bulkGen (fun _ => Outcome.response 404 "") none ["abc"] initState).available
      = ["abc"] ∧
    (bulkGen (fun _ => Outcome.response 404 "") none ["abc"] initState).fs.resultLog
      = [] := by
  decide

/-- C7 amended: in `orig.py`'s driver, a candidate classified Available is
appended to the persistent result log within the same loop iteration — before
the next candidate is probed — in addition to the in-memory result list; the
active driver of `generate.py` only accumulates in memory (see the
counterexample). -/
theorem c7_amended (checked : Finset String) (env : String → Outcome)
    (m : Option ℕ) (st : DriveState) (u : String) (hu : u ∉ checked)
    (hav : checkUsernameBool (env u) = true) :
    (origStep checked env m st u).1.fs.resultLog = st.fs.resultLog ++ [u] ∧
    (origStep checked env m st u).1.available = st.available ++ [u] := by
  have hs := origStep_not_mem checked env m st u hu
  rw [hs.2.2.2.2.1, hs.2.2.2.1, hav]
  simp

/-- Witness for C7 amended: candidate "abc", available (status 404), fresh
state — the step appends "abc" to both the result log and the in-memory
list. -/
theorem c7_amended_witness :
    (origStep ∅ (fun _ => Outcome.response 404 "") none initState "abc").1.fs.resultLog
      = initState.fs.resultLog ++ ["abc"] ∧
    (origStep ∅ (fun _ => Outcome.response 404 "") none initState "abc").1.available
      = initState.available ++ ["abc"] :=
  c7_amended ∅ (fun _ => Outcome.response 404 "") none initState "abc"
    (Finset.not_mem_empty "abc") rfl
